import Mathlib

/-!
Verification of the AI Study Assistant core (`ai_study_app.py`):
the allocation scheduler (`generate_schedule`), task entry (`add_task`),
and the focus-timer countdown with its score ledger
(`_countdown` / `start_focus_session`).

Dates are modelled as integers (proleptic-Gregorian ordinal day numbers,
as produced by `toOrdinal`); hours are modelled as rationals, standing in
for Python floats with exact arithmetic.
-/

namespace AiStudy

/-- Embeds class `Task` (ai_study_app.py lines 46-58): name, estimated
hours, due date (ordinal day number) and completed hours (always 0.0 at
construction; nothing in the program ever updates it). -/
structure Task where
  name : String
  hours : ℚ
  dueDate : ℤ
  completedHours : ℚ
deriving DecidableEq

/-- `Task.remaining_hours` (line 58): `max(self.hours - self.completed_hours, 0.0)`. -/
def Task.remainingHours (t : Task) : ℚ := max (t.hours - t.completedHours) 0

/-- One element of `self.schedule` (line 199): the date the entry is for,
the task's name and the allocated hours (the Python code stores the last
two pre-rendered into a display string; the numeric content is the same). -/
structure ScheduleEntry where
  date : ℤ
  taskName : String
  allocatedHours : ℚ
deriving DecidableEq

/-- The sort key test of line 187 (`key=lambda t: t.due_date`), as the
Boolean comparison handed to the stable sort. -/
def dueLE (a b : Task) : Bool := decide (a.dueDate ≤ b.dueDate)

/-- `sorted(self.tasks, key=lambda t: t.due_date)` (line 187); Python's
`sorted` is a stable mergesort, modelled by `List.mergeSort`. -/
def sortTasks (tasks : List Task) : List Task := tasks.mergeSort dueLE

/-- `total_days` for one task (lines 191-193): `(due - today).days + 1`,
clamped up to 1 when the due date is today or past. -/
def totalDaysFor (today : ℤ) (t : Task) : ℤ :=
  let td := t.dueDate - today + 1
  if td ≤ 0 then 1 else td

/-- The dates visited by the `while current_date <= task.due_date.date()`
loop of lines 196-200: `today, today+1, ..., due` (empty when `due < today`). -/
def daysList (today due : ℤ) : List ℤ :=
  (List.range (due - today + 1).toNat).map (fun i : ℕ => today + (i : ℤ))

/-- The loop body of lines 190-200 for a single task: `daily_allocation =
remaining_hours / total_days`, and one entry per visited day carrying
`min(daily_allocation, self.daily_hours)`. -/
def scheduleTask (today : ℤ) (cap : ℚ) (t : Task) : List ScheduleEntry :=
  let dailyAllocation := t.remainingHours / ((totalDaysFor today t : ℤ) : ℚ)
  (daysList today t.dueDate).map
    (fun d => ⟨d, t.name, min dailyAllocation cap⟩)

/-- The schedule built by lines 184-200: clear, sort the tasks by due
date, then append each task's entries in order. -/
def generate (tasks : List Task) (cap : ℚ) (today : ℤ) : List ScheduleEntry :=
  ((sortTasks tasks).map (scheduleTask today cap)).flatten

/-- The display grouping of lines 207-215: one bucket per distinct date
(`grouped.setdefault(date, []).append(desc)`), iterated over
`sorted(grouped.keys())`; each bucket holds that date's entries in
schedule order. -/
def groupSchedule (sched : List ScheduleEntry) : List (ℤ × List ScheduleEntry) :=
  (((sched.map (fun e => e.date)).dedup).mergeSort (fun a b => decide (a ≤ b))).map
    (fun d => (d, sched.filter (fun e => decide (e.date = d))))

/-- Total hours the schedule assigns to one calendar day. -/
def daySum (sched : List ScheduleEntry) (d : ℤ) : ℚ :=
  ((sched.filter (fun e => decide (e.date = d))).map (fun e => e.allocatedHours)).sum

/-! ### Input parsing

`add_task` (lines 135-161) relies on Python's `str.strip`, `float` and
`datetime.strptime(..., "%Y-%m-%d")`, and the dialogs use `int`. These
library routines are modelled below on explicit character lists,
restricted to the shapes the application actually feeds them
(plain decimal literals and `YYYY-MM-DD` date strings). -/

/-- `str.strip()`: drop whitespace from both ends. -/
def trimChars (l : List Char) : List Char :=
  ((l.dropWhile (fun c => c.isWhitespace)).reverse.dropWhile
    (fun c => c.isWhitespace)).reverse

/-- Split a character list at every occurrence of `sep`
(like Python's `str.split(sep)`; `"" ↦ [""]`). -/
def splitOnChar (sep : Char) : List Char → List (List Char)
  | [] => [[]]
  | c :: rest =>
    match splitOnChar sep rest with
    | [] => if c = sep then [[], [c]] else [[c]]
    | h :: t => if c = sep then [] :: h :: t else (c :: h) :: t

/-- Value of a digit string, most significant first. -/
def digitsToNat (l : List Char) : ℕ :=
  l.foldl (fun a c => 10 * a + (c.toNat - 48)) 0

/-- A non-empty all-digit character list. -/
def isDigits (l : List Char) : Bool := !l.isEmpty && l.all (fun c => c.isDigit)

/-- Digit-string parser used for the date components (strptime's `%Y`,
`%m`, `%d` directives each match a run of digits). -/
def parseNatChars (l : List Char) : Option ℕ :=
  if isDigits l then some (digitsToNat l) else none

/-- Unsigned part of Python `float()`, restricted to plain decimal
literals: digits with at most one decimal point, `"1."` and `".5"`
allowed, `"."` and `""` not. -/
def parseUnsignedFloat (l : List Char) : Option ℚ :=
  match splitOnChar (Char.ofNat 46) l with
  | [w] => if isDigits w then some ((digitsToNat w : ℚ)) else none
  | [w, f] =>
    if (w.all (fun c => c.isDigit) && f.all (fun c => c.isDigit))
        && !(w.isEmpty && f.isEmpty) then
      some ((digitsToNat w : ℚ) + (digitsToNat f : ℚ) / (10 : ℚ) ^ f.length)
    else none
  | _ => none

/-- Python `float(s)` as used on the hours and daily-capacity fields
(modelled for plain decimal literals with an optional sign). -/
def parseFloatChars (l : List Char) : Option ℚ :=
  match l with
  | '-' :: rest => (parseUnsignedFloat rest).map (fun q => -q)
  | '+' :: rest => parseUnsignedFloat rest
  | _ => parseUnsignedFloat l

/-- Python `int(s)` as used on the focus-duration field (optional sign
followed by digits). -/
def parseIntChars (l : List Char) : Option ℤ :=
  match l with
  | '-' :: rest => (parseNatChars rest).map (fun n => -(n : ℤ))
  | '+' :: rest => (parseNatChars rest).map (fun n => (n : ℤ))
  | _ => (parseNatChars l).map (fun n => (n : ℤ))

/-- Gregorian leap-year test. -/
def isLeapYear (y : ℕ) : Bool := (y % 4 == 0 && y % 100 != 0) || y % 400 == 0

/-- Length of a month, as `datetime` validates it. -/
def daysInMonth (y m : ℕ) : ℕ :=
  if m = 2 then (if isLeapYear y then 29 else 28)
  else if m = 4 ∨ m = 6 ∨ m = 9 ∨ m = 11 then 30
  else 31

/-- Days in months of year `y` strictly before month `m`. -/
def daysBeforeMonth (y m : ℕ) : ℕ :=
  ((List.range (m - 1)).map (fun i => daysInMonth y (i + 1))).sum

/-- Proleptic-Gregorian ordinal of a calendar date (1-Jan-0001 is day 1),
the day numbering Python's `date` arithmetic is based on. -/
def toOrdinal (y m d : ℕ) : ℤ :=
  ((365 * (y - 1) + (y - 1) / 4 - (y - 1) / 100 + (y - 1) / 400
    + daysBeforeMonth y m + d : ℕ) : ℤ)

/-- Convenience name for writing concrete dates. -/
def mkDate (y m d : ℕ) : ℤ := toOrdinal y m d

/-- `datetime.strptime(s, "%Y-%m-%d")`: exactly three dash-separated
digit runs forming a valid calendar date in `datetime`'s supported year
range. -/
def parseDateChars (l : List Char) : Option (ℕ × ℕ × ℕ) :=
  match splitOnChar '-' l with
  | [ys, ms, ds] =>
    match parseNatChars ys, parseNatChars ms, parseNatChars ds with
    | some y, some m, some d =>
      if 1 ≤ y ∧ y ≤ 9999 ∧ 1 ≤ m ∧ m ≤ 12 ∧ 1 ≤ d ∧ d ≤ daysInMonth y m then
        some (y, m, d)
      else none
    | _, _, _ => none
  | _ => none

/-! ### Application state and operations -/

/-- The mutable fields of `AiStudyApp` that carry program state
(lines 75-80): the task store, the cached daily capacity, the last
generated schedule, the timer flag and the point total. The tkinter
widgets are the UI collaborator and are not part of the state. -/
structure AppState where
  tasks : List Task
  dailyHours : Option ℚ
  schedule : List ScheduleEntry
  timerRunning : Bool
  points : ℤ
deriving DecidableEq

/-- The state at `__init__`: no tasks, no cached capacity, empty
schedule, timer off, zero points. -/
def initState : AppState := ⟨[], none, [], false, 0⟩

/-- Outcome of `add_task`: a task appended, or a warning dialog shown
and nothing changed. -/
inductive AddResult where
  | ok
  | invalidInput (msg : String)
deriving DecidableEq

/-- `add_task` (lines 135-161): strip the three entry fields, reject
when any is empty, when the hours do not parse as a float, or when the
date does not parse as `YYYY-MM-DD`; otherwise append the new task.
The three rejection dialogs are the spec's `InvalidInput`. -/
def addTask (s : AppState) (nameIn hoursIn dueIn : String) : AppState × AddResult :=
  let name := trimChars nameIn.data
  let hoursStr := trimChars hoursIn.data
  let dueStr := trimChars dueIn.data
  if name.isEmpty || hoursStr.isEmpty || dueStr.isEmpty then
    (s, .invalidInput "请填写所有字段。")
  else
    match parseFloatChars hoursStr with
    | none => (s, .invalidInput "预估小时数必须为数字。")
    | some hours =>
      match parseDateChars dueStr with
      | none => (s, .invalidInput "截止日期格式应为 YYYY-MM-DD。")
      | some (y, m, d) =>
        ({ s with tasks := s.tasks ++ [⟨String.mk name, hours, toOrdinal y m d, 0⟩] },
          .ok)

/-- Outcome of `generate_schedule`. -/
inductive GenResult where
  | noTasks
  | dialogCancelled
  | invalidInput
  | generated
deriving DecidableEq

/-- `generate_schedule` (lines 163-215) as a state transition. With no
tasks it shows an info dialog and returns at line 167, before the
schedule is cleared. When no daily capacity is cached it prompts for
one (`answer`), rejecting a cancelled dialog, a non-float answer, or a
non-positive value (resetting the cache to `None`). Otherwise it
rebuilds `self.schedule` from scratch for the given `today`. -/
def generateSchedule (s : AppState) (today : ℤ) (answer : Option String) :
    AppState × GenResult :=
  if s.tasks.isEmpty then (s, .noTasks)
  else
    match s.dailyHours with
    | some dh => ({ s with schedule := generate s.tasks dh today }, .generated)
    | none =>
      match answer with
      | none => (s, .dialogCancelled)
      | some a =>
        match parseFloatChars a.data with
        | none => ({ s with dailyHours := none }, .invalidInput)
        | some v =>
          if v ≤ 0 then ({ s with dailyHours := none }, .invalidInput)
          else ({ s with dailyHours := some v,
                         schedule := generate s.tasks v today }, .generated)

/-! ### Focus timer and score ledger -/

/-- `"%02d"` formatting: pad a one-digit number with a leading zero. -/
def pad2 (n : ℕ) : String := if n < 10 then "0" ++ toString n else toString n

/-- The countdown tick string of lines 222-224:
`mins, secs = divmod(remaining, 60)` rendered as `"剩余: mm:ss"`. -/
def fmtTime (remaining : ℕ) : String :=
  "剩余: " ++ pad2 (remaining / 60) ++ ":" ++ pad2 (remaining % 60)

/-- Whether `self.timer_running` is still set at the loop's `i`-th read:
`none` means no cancellation ever happens; `some c` means an external
clear of the flag is first observed at read `c`. -/
def flagAt (cancel : Option ℕ) (i : ℕ) : Bool :=
  match cancel with
  | none => true
  | some c => decide (i < c)

/-- The `while self.timer_running and time.time() < end_time` loop of
lines 221-226, with time discretised to one tick per `sleep(1)`:
at iteration `i` the clock reads `start + i`, so `fuel = seconds - i`
counts the remaining successful time tests. Returns the read index at
which the loop exited and the published tick strings. -/
def countdownLoop (cancel : Option ℕ) (seconds : ℕ) : ℕ → ℕ → ℕ × List String
  | i, 0 => (i, [])
  | i, fuel + 1 =>
    if flagAt cancel i then
      let r := countdownLoop cancel seconds (i + 1) fuel
      (r.1, fmtTime (seconds - i) :: r.2)
    else (i, [])

/-- What `_countdown` leaves behind: the point total, the timer flag,
and the strings published to the timer label, in order. -/
structure CountdownResult where
  points : ℤ
  timerRunning : Bool
  displays : List String
deriving DecidableEq

/-- `_countdown(seconds)` (lines 217-233): run the tick loop; if the
flag is still set afterwards, publish `"专注完成！"` and award 10
points; in every case clear the flag at line 233. -/
def countdown (seconds : ℕ) (cancel : Option ℕ) (pts : ℤ) : CountdownResult :=
  let r := countdownLoop cancel seconds 0 seconds
  if flagAt cancel r.1 then
    ⟨pts + 10, false, r.2 ++ ["专注完成！"]⟩
  else
    ⟨pts, false, r.2⟩

/-- Outcome of `start_focus_session`. -/
inductive StartResult where
  | invalidState
  | dialogCancelled
  | invalidInput
  | started
deriving DecidableEq

/-- `start_focus_session` (lines 235-256): reject immediately when a
session is already running (lines 237-239); otherwise prompt for the
duration, rejecting a cancelled dialog, a non-integer answer or a
non-positive value; on success set the running flag and hand
`minutes * 60` seconds to the countdown thread. -/
def startFocusSession (s : AppState) (answer : Option String) :
    AppState × StartResult :=
  if s.timerRunning then (s, .invalidState)
  else
    match answer with
    | none => (s, .dialogCancelled)
    | some a =>
      match parseIntChars a.data with
      | none => (s, .invalidInput)
      | some m =>
        if m ≤ 0 then (s, .invalidInput)
        else ({ s with timerRunning := true }, .started)

/-- One observable transition of the application: a button press handled
synchronously, or the background countdown thread running to its end
(which requires the flag to have been set by `start_focus_session`). -/
inductive Step : AppState → AppState → Prop
  | add (s : AppState) (n h d : String) : Step s (addTask s n h d).1
  | gen (s : AppState) (today : ℤ) (ans : Option String) :
      Step s (generateSchedule s today ans).1
  | start (s : AppState) (ans : Option String) :
      Step s (startFocusSession s ans).1
  | countdownEnd (s : AppState) (seconds : ℕ) (cancel : Option ℕ) :
      s.timerRunning = true →
      Step s { s with points := (countdown seconds cancel s.points).points,
                      timerRunning := (countdown seconds cancel s.points).timerRunning }

/-- States reachable from the freshly initialised application. -/
inductive Reachable : AppState → Prop
  | init : Reachable initState
  | step {s s' : AppState} : Reachable s → Step s s' → Reachable s'

/-! ### Theorems -/

/-- Every entry a single task contributes is capped at the daily capacity
and carries exactly `min(daily_allocation, cap)`. -/
theorem scheduleTask_allocation (today : ℤ) (cap : ℚ) (t : Task) :
    ∀ e ∈ scheduleTask today cap t,
      e.allocatedHours =
        min (t.remainingHours / ((totalDaysFor today t : ℤ) : ℚ)) cap := by
  intro e he
  simp only [scheduleTask, List.mem_map] at he
  obtain ⟨d, -, rfl⟩ := he
  rfl

/-- Membership in a generated schedule comes from one of the input tasks. -/
theorem mem_generate (tasks : List Task) (cap : ℚ) (today : ℤ) :
    ∀ e ∈ generate tasks cap today,
      ∃ t ∈ tasks, e ∈ scheduleTask today cap t := by
  intro e he
  simp only [generate, List.mem_flatten, List.mem_map] at he
  obtain ⟨l, ⟨t, ht, rfl⟩, hel⟩ := he
  exact ⟨t, (List.mem_mergeSort.mp ht), hel⟩

/-- C1: the spec (and the code's own comment at line 193, "If due date is
today or past, allocate all work today") promise one entry dated today
for a task whose due date has passed; but the loop guard
`current_date <= task.due_date.date()` is false at once, so the task
contributes no entry at all: on 2024-01-02 a task due 2024-01-01 gets an
empty schedule instead of one 2-hour entry. -/
theorem pastDue_no_entry :
    mkDate 2024 1 1 < mkDate 2024 1 2 ∧
    generate [⟨"Essay", 6, mkDate 2024 1 1, 0⟩] 2 (mkDate 2024 1 2) = [] := by
  refine ⟨by decide, ?_⟩
  simp only [generate, sortTasks, List.mergeSort_singleton]
  decide

/-- C6: while the timer flag is set, `start_focus_session` returns at
line 239 before reading any input: the state (running session, points,
everything) is exactly unchanged and the outcome is the `InvalidState`
rejection. -/
theorem start_rejected_when_running (s : AppState) (ans : Option String)
    (h : s.timerRunning = true) :
    startFocusSession s ans = (s, StartResult.invalidState) := by
  simp [startFocusSession, h]

/-- Witness for `start_rejected_when_running` at a concrete running state. -/
theorem start_rejected_when_running_witness :
    (⟨[], none, [], true, 0⟩ : AppState).timerRunning = true ∧
    startFocusSession ⟨[], none, [], true, 0⟩ (some "25") =
      (⟨[], none, [], true, 0⟩, StartResult.invalidState) :=
  ⟨rfl, start_rejected_when_running ⟨[], none, [], true, 0⟩ (some "25") rfl⟩

/-- C4: per-task allocation never looks at what other tasks already took
on the same day, so with two 2-hour tasks both due today and a capacity
of 1 hour, today receives 1 + 1 = 2 allocated hours, exceeding the
capacity. -/
theorem generate_overcommit :
    ∃ (tasks : List Task) (cap : ℚ) (today d : ℤ),
      0 < cap ∧ cap < daySum (generate tasks cap today) d := by
  refine ⟨[⟨"A", 2, 0, 0⟩, ⟨"B", 2, 0, 0⟩], 1, 0, 0, by norm_num, ?_⟩
  have hs : List.mergeSort [(⟨"A", 2, 0, 0⟩ : Task), ⟨"B", 2, 0, 0⟩] dueLE =
      [⟨"A", 2, 0, 0⟩, ⟨"B", 2, 0, 0⟩] :=
    List.mergeSort_of_sorted (by decide)
  simp only [generate, sortTasks, hs, List.map_cons, List.map_nil,
    List.flatten_cons, List.flatten_nil, List.append_nil, scheduleTask,
    daysList, totalDaysFor, Task.remainingHours, daySum]
  norm_num [min_def, show List.range 1 = [0] from by decide, List.flatMap_cons,
    List.flatMap_nil, List.filter_cons, List.filter_nil, List.sum_cons, List.sum_nil]

/-- C3: every emitted entry carries `min(daily_allocation, daily_capacity)`
for its task, hence never exceeds the capacity; and when the cap binds,
the shortfall is kept: the 6-hour Essay due 2024-01-04 scheduled on
2024-01-01 with capacity 1.0 yields four 1-hour entries totalling 4
hours, not 6. -/
theorem generate_capped :
    (∀ (tasks : List Task) (cap : ℚ) (today : ℤ),
      ∀ e ∈ generate tasks cap today,
        (∃ t ∈ tasks,
          e.allocatedHours =
            min (t.remainingHours / ((totalDaysFor today t : ℤ) : ℚ)) cap) ∧
        e.allocatedHours ≤ cap) ∧
    (generate [⟨"Essay", 6, mkDate 2024 1 4, 0⟩] 1 (mkDate 2024 1 1)).map
        (fun e => e.allocatedHours) = [1, 1, 1, 1] ∧
    ((generate [⟨"Essay", 6, mkDate 2024 1 4, 0⟩] 1 (mkDate 2024 1 1)).map
        (fun e => e.allocatedHours)).sum = 4 := by
  have hmap : (generate [⟨"Essay", 6, mkDate 2024 1 4, 0⟩] 1 (mkDate 2024 1 1)).map
      (fun e => e.allocatedHours) = [1, 1, 1, 1] := by
    simp only [generate, sortTasks, List.mergeSort_singleton, List.map_cons,
      List.map_nil, List.flatten_cons, List.flatten_nil, List.append_nil,
      scheduleTask, daysList, Task.remainingHours,
      show totalDaysFor (mkDate 2024 1 1) ⟨"Essay", 6, mkDate 2024 1 4, 0⟩ = 4
        from by decide,
      show (mkDate 2024 1 4 - mkDate 2024 1 1 + 1 : ℤ).toNat = 4 from by decide,
      show List.range 4 = [0, 1, 2, 3] from by decide]
    norm_num [min_def]
  refine ⟨?_, hmap, by rw [hmap]; norm_num⟩
  intro tasks cap today e he
  obtain ⟨t, ht, hes⟩ := mem_generate tasks cap today e he
  have := scheduleTask_allocation today cap t e hes
  exact ⟨⟨t, ht, this⟩, this ▸ min_le_right _ _⟩

/-- Witness for `generate_capped`: a concrete entry of a concrete
schedule observes the capacity bound. -/
theorem generate_capped_witness :
    (⟨0, "A", 1⟩ : ScheduleEntry) ∈ generate [⟨"A", 2, 0, 0⟩] 1 0 ∧
    (⟨0, "A", 1⟩ : ScheduleEntry).allocatedHours ≤ 1 := by
  have hm : (⟨0, "A", 1⟩ : ScheduleEntry) ∈ generate [⟨"A", 2, 0, 0⟩] 1 0 := by
    simp only [generate, sortTasks, List.mergeSort_singleton, List.map_cons,
      List.map_nil, List.flatten_cons, List.flatten_nil, List.append_nil,
      scheduleTask, daysList, totalDaysFor, Task.remainingHours,
      show List.range (0 - 0 + 1 : ℤ).toNat = [0] from by decide]
    norm_num [min_def]
  exact ⟨hm, (generate_capped.1 [⟨"A", 2, 0, 0⟩] 1 0 ⟨0, "A", 1⟩ hm).2⟩

/-- C2: a single task due `N ≥ 0` days from today, with capacity at
least `R/(N+1)`, yields one entry per day from today through the due
date, each allocating exactly `R/(N+1)`, and the allocations sum to the
full remaining `R` (exactly, in ℚ). -/
theorem generate_even_split (t : Task) (today : ℤ) (N : ℕ) (cap : ℚ)
    (hdue : t.dueDate = today + N)
    (hcap : t.remainingHours / ((N : ℚ) + 1) ≤ cap) :
    (generate [t] cap today).length = N + 1 ∧
    (∀ i (h : i < (generate [t] cap today).length),
      (generate [t] cap today).get ⟨i, h⟩ =
        ⟨today + (i : ℤ), t.name, t.remainingHours / ((N : ℚ) + 1)⟩) ∧
    ((generate [t] cap today).map (fun e => e.allocatedHours)).sum
      = t.remainingHours := by
  have htd : totalDaysFor today t = (N : ℤ) + 1 := by
    simp only [totalDaysFor, hdue]
    have h1 : today + (N : ℤ) - today + 1 = (N : ℤ) + 1 := by ring
    rw [h1, if_neg (by omega)]
  have hcast : ((totalDaysFor today t : ℤ) : ℚ) = (N : ℚ) + 1 := by
    rw [htd]; push_cast; ring
  have hmin : min (t.remainingHours / ((N : ℚ) + 1)) cap
      = t.remainingHours / ((N : ℚ) + 1) := min_eq_left hcap
  have hg : generate [t] cap today =
      (List.range (N + 1)).map
        (fun i => ⟨today + (i : ℤ), t.name, t.remainingHours / ((N : ℚ) + 1)⟩) := by
    have h2 : (t.dueDate - today + 1).toNat = N + 1 := by omega
    simp only [generate, sortTasks, List.mergeSort_singleton, List.map_cons,
      List.map_nil, List.flatten_cons, List.flatten_nil, List.append_nil,
      scheduleTask, daysList, hcast, hmin, h2, List.map_map]
    rfl
  refine ⟨by rw [hg]; simp, ?_, ?_⟩
  · intro i h
    rw [List.get_of_eq hg ⟨i, h⟩]
    simp [List.get_eq_getElem]
  · rw [hg, List.map_map]
    have h3 : ((fun e : ScheduleEntry => e.allocatedHours) ∘
        fun i : ℕ => (⟨today + (i : ℤ), t.name,
          t.remainingHours / ((N : ℚ) + 1)⟩ : ScheduleEntry))
        = fun _ => t.remainingHours / ((N : ℚ) + 1) := rfl
    rw [h3, List.map_const', List.sum_replicate, List.length_range,
      nsmul_eq_mul]
    have h4 : ((N : ℚ) + 1) ≠ 0 := by positivity
    push_cast
    field_simp

/-- Witness for `generate_even_split`: the Essay scenario — 6 hours due
2024-01-04, scheduled on 2024-01-01 with capacity 2 — gives four entries
summing to the full 6 hours. -/
theorem generate_even_split_witness :
    (generate [⟨"Essay", 6, mkDate 2024 1 4, 0⟩] 2 (mkDate 2024 1 1)).length = 4 ∧
    ((generate [⟨"Essay", 6, mkDate 2024 1 4, 0⟩] 2 (mkDate 2024 1 1)).map
      (fun e => e.allocatedHours)).sum = 6 := by
  have h := generate_even_split ⟨"Essay", 6, mkDate 2024 1 4, 0⟩ (mkDate 2024 1 1)
    3 2 (by decide) (by norm_num [Task.remainingHours])
  exact ⟨h.1, h.2.2.trans (by norm_num [Task.remainingHours])⟩

/-- The due-date comparison is transitive. -/
theorem dueLE_trans : ∀ (a b c : Task), dueLE a b → dueLE b c → dueLE a c := by
  intro a b c h1 h2
  simp only [dueLE, decide_eq_true_eq] at h1 h2 ⊢
  omega

/-- The due-date comparison is total. -/
theorem dueLE_total : ∀ (a b : Task), dueLE a b || dueLE b a := by
  intro a b
  simp only [dueLE, Bool.or_eq_true, decide_eq_true_eq]
  omega

/-- C5: the scheduler walks the tasks sorted by due date with a stable
sort — the sorted list is due-date-ordered, is a permutation of the
input, and any pair already in comparison order (in particular any tie)
keeps its relative input order — and the display grouping lists each
date once in strictly ascending order, each group holding exactly that
date's entries in emission order (a sublist of the schedule). -/
theorem generate_ordering (tasks : List Task) (cap : ℚ) (today : ℤ) :
    generate tasks cap today
      = ((sortTasks tasks).map (scheduleTask today cap)).flatten ∧
    (sortTasks tasks).Pairwise (fun a b => a.dueDate ≤ b.dueDate) ∧
    List.Perm (sortTasks tasks) tasks ∧
    (∀ a b : Task, a.dueDate ≤ b.dueDate → List.Sublist [a, b] tasks →
      List.Sublist [a, b] (sortTasks tasks)) ∧
    ((groupSchedule (generate tasks cap today)).map Prod.fst).Pairwise
      (fun a b => a < b) ∧
    (∀ p ∈ groupSchedule (generate tasks cap today),
      p.2 = (generate tasks cap today).filter
        (fun e => decide (e.date = p.1)) ∧
      List.Sublist p.2 (generate tasks cap today)) := by
  refine ⟨rfl, ?_, ?_, ?_, ?_, ?_⟩
  · exact (List.sorted_mergeSort dueLE_trans dueLE_total tasks).imp
      (fun h => by simpa [dueLE] using h)
  · exact List.mergeSort_perm tasks dueLE
  · intro a b hab hsub
    exact List.pair_sublist_mergeSort dueLE_trans dueLE_total
      (by simpa [dueLE] using hab) hsub
  · have htr : ∀ a b c : ℤ, decide (a ≤ b) = true → decide (b ≤ c) = true →
        decide (a ≤ c) = true := by intro a b c h1 h2; simp_all; omega
    have hto : ∀ a b : ℤ, decide (a ≤ b) || decide (b ≤ a) := by
      intro a b; simp; omega
    have hsorted := List.sorted_mergeSort htr hto
      (((generate tasks cap today).map (fun e => e.date)).dedup)
    have hperm := List.mergeSort_perm
      (((generate tasks cap today).map (fun e => e.date)).dedup)
      (fun a b => decide (a ≤ b))
    have hnodup : (((generate tasks cap today).map
        (fun e => e.date)).dedup.mergeSort (fun a b => decide (a ≤ b))).Nodup :=
      hperm.symm.nodup
        (List.nodup_dedup ((generate tasks cap today).map (fun e => e.date)))
    have hlt := (hsorted.and hnodup).imp
      (fun h => lt_of_le_of_ne (by simpa using h.1) h.2)
    simpa [groupSchedule, List.map_map, List.pairwise_map] using hlt
  · intro p hp
    simp only [groupSchedule, List.mem_map] at hp
    obtain ⟨d, -, rfl⟩ := hp
    exact ⟨rfl, List.filter_sublist _⟩

/-- Witness for `generate_ordering`: two tasks tied on due date keep
their input order through the sort. -/
theorem generate_ordering_witness :
    List.Sublist [(⟨"X", 1, 5, 0⟩ : Task), ⟨"Y", 1, 5, 0⟩]
      (sortTasks [⟨"X", 1, 5, 0⟩, ⟨"Y", 1, 5, 0⟩]) :=
  (generate_ordering [⟨"X", 1, 5, 0⟩, ⟨"Y", 1, 5, 0⟩] 1 5).2.2.2.1
    ⟨"X", 1, 5, 0⟩ ⟨"Y", 1, 5, 0⟩ (by decide) (List.Sublist.refl _)

/-- C7 counterexample: `add_task` never checks the sign of the parsed
hours. With name `"A"`, hours `"0"` (numeric, non-positive) and a valid
date, the claim demands an `InvalidInput` rejection with no task
appended; the code accepts the input and appends a 0-hour task. -/
theorem addTask_nonpositive_accepted :
    parseFloatChars "0".data = some 0 ∧
    (addTask initState "A" "0" "2024-01-04").2 = AddResult.ok ∧
    (addTask initState "A" "0" "2024-01-04").1.tasks
      = [⟨"A", 0, toOrdinal 2024 1 4, 0⟩] := by
  refine ⟨by decide, by decide, by decide⟩

/-- C7 (amended): when a required field is empty after stripping, the
hours do not parse as a float, or the due date does not parse as
`YYYY-MM-DD`, `add_task` reports `InvalidInput` and leaves the state
exactly unchanged; a numeric but non-positive hours value is NOT
rejected (the task is appended, see `addTask_nonpositive_accepted`). -/
theorem addTask_invalid_rejected (s : AppState) (nameIn hoursIn dueIn : String)
    (h : (trimChars nameIn.data).isEmpty = true ∨
         (trimChars hoursIn.data).isEmpty = true ∨
         (trimChars dueIn.data).isEmpty = true ∨
         parseFloatChars (trimChars hoursIn.data) = none ∨
         parseDateChars (trimChars dueIn.data) = none) :
    ∃ msg, addTask s nameIn hoursIn dueIn = (s, AddResult.invalidInput msg) := by
  cases hemp : (trimChars nameIn.data).isEmpty || (trimChars hoursIn.data).isEmpty
      || (trimChars dueIn.data).isEmpty with
  | true => exact ⟨"请填写所有字段。", by simp [addTask, hemp]⟩
  | false =>
    cases hpf : parseFloatChars (trimChars hoursIn.data) with
    | none => exact ⟨"预估小时数必须为数字。", by simp [addTask, hemp, hpf]⟩
    | some v =>
      cases hpd : parseDateChars (trimChars dueIn.data) with
      | none => exact ⟨"截止日期格式应为 YYYY-MM-DD。", by simp [addTask, hemp, hpf, hpd]⟩
      | some ymd =>
        exfalso
        rcases h with h | h | h | h | h
        · rw [h] at hemp; simp at hemp
        · rw [h] at hemp; simp at hemp
        · rw [h] at hemp; simp at hemp
        · rw [hpf] at h; exact Option.noConfusion h
        · rw [hpd] at h; exact Option.noConfusion h

/-- Witness for `addTask_invalid_rejected`: non-numeric hours are
rejected without touching the state. -/
theorem addTask_invalid_rejected_witness :
    ∃ msg, addTask initState "A" "abc" "2024-01-04"
      = (initState, AddResult.invalidInput msg) :=
  addTask_invalid_rejected initState "A" "abc" "2024-01-04"
    (Or.inr (Or.inr (Or.inr (Or.inl (by decide)))))

/-- `add_task` either leaves the state alone (a rejection) or appends
exactly one task; no other field changes. -/
theorem addTask_state_cases (s : AppState) (n h d : String) :
    (addTask s n h d).1 = s ∨
    ∃ t, (addTask s n h d).1 = { s with tasks := s.tasks ++ [t] } := by
  cases hemp : (trimChars n.data).isEmpty || (trimChars h.data).isEmpty
      || (trimChars d.data).isEmpty with
  | true => exact Or.inl (by simp [addTask, hemp])
  | false =>
    cases hpf : parseFloatChars (trimChars h.data) with
    | none => exact Or.inl (by simp [addTask, hemp, hpf])
    | some v =>
      cases hpd : parseDateChars (trimChars d.data) with
      | none => exact Or.inl (by simp [addTask, hemp, hpf, hpd])
      | some ymd =>
        obtain ⟨y, m, dd⟩ := ymd
        exact Or.inr ⟨⟨String.mk (trimChars n.data), v, toOrdinal y m dd, 0⟩,
          by simp [addTask, hemp, hpf, hpd]⟩

/-- `generate_schedule` never changes the task list. -/
theorem genSchedule_tasks (s : AppState) (today : ℤ) (ans : Option String) :
    (generateSchedule s today ans).1.tasks = s.tasks := by
  unfold generateSchedule
  repeat' split
  all_goals rfl

/-- `generate_schedule` never changes the point total. -/
theorem genSchedule_points (s : AppState) (today : ℤ) (ans : Option String) :
    (generateSchedule s today ans).1.points = s.points := by
  unfold generateSchedule
  repeat' split
  all_goals rfl

/-- With no tasks, `generate_schedule` returns at line 167: the whole
state — the previously generated schedule included — is untouched. -/
theorem genSchedule_empty (s : AppState) (today : ℤ) (ans : Option String)
    (h : s.tasks = []) :
    generateSchedule s today ans = (s, GenResult.noTasks) := by
  have he : s.tasks.isEmpty = true := by simp [h]
  simp [generateSchedule, he]

/-- `start_focus_session` either leaves the state alone or just sets the
timer flag. -/
theorem startFocus_state_cases (s : AppState) (ans : Option String) :
    (startFocusSession s ans).1 = s ∨
    (startFocusSession s ans).1 = { s with timerRunning := true } := by
  unfold startFocusSession
  repeat' split
  all_goals simp

/-- A step never turns a state satisfying "no tasks implies no schedule"
into one violating it: tasks are only ever appended, and the schedule is
only rewritten when tasks exist. -/
theorem step_preserves_empty_inv {s s' : AppState} (hs : Step s s')
    (hinv : s.tasks = [] → s.schedule = []) :
    s'.tasks = [] → s'.schedule = [] := by
  cases hs with
  | add n h d =>
    rcases addTask_state_cases s n h d with hc | ⟨t, hc⟩
    · rw [hc]; exact hinv
    · rw [hc]; intro hts; exact absurd hts (by simp)
  | gen today ans =>
    intro hts
    rcases hts' : s.tasks with _ | _
    · rw [genSchedule_empty s today ans hts']
      exact hinv hts'
    · rw [genSchedule_tasks] at hts
      rw [hts] at hts'
      exact List.noConfusion hts'
  | start ans =>
    rcases startFocus_state_cases s ans with hc | hc
    · rw [hc]; exact hinv
    · rw [hc]; exact hinv
  | countdownEnd seconds cancel h => exact hinv

/-- In every reachable state, an empty task store comes with an empty
schedule (the program has no way to remove tasks, so a schedule can
only have been generated from a non-empty store that still exists). -/
theorem reachable_empty_inv : ∀ s : AppState, Reachable s →
    s.tasks = [] → s.schedule = [] := by
  intro s hr
  induction hr with
  | init => intro; rfl
  | step hr hs ih => exact step_preserves_empty_inv hs ih

/-- C8: a degenerate task list raises nothing. The pure allocation loop
over zero tasks emits zero entries, and in any reachable state with no
tasks, `generate_schedule` leaves the (necessarily already empty)
schedule empty and reports the no-tasks notice. -/
theorem generate_empty_tasks (cap : ℚ) (td : ℤ) (s : AppState) (today : ℤ)
    (ans : Option String) (hr : Reachable s) (ht : s.tasks = []) :
    generate [] cap td = [] ∧
    (generateSchedule s today ans).1.schedule = [] ∧
    (generateSchedule s today ans).2 = GenResult.noTasks := by
  refine ⟨by simp [generate, sortTasks], ?_, ?_⟩
  · rw [genSchedule_empty s today ans ht]
    exact reachable_empty_inv s hr ht
  · rw [genSchedule_empty s today ans ht]

/-- Witness for `generate_empty_tasks` at the freshly initialised state. -/
theorem generate_empty_tasks_witness :
    generate [] 1 0 = [] ∧
    (generateSchedule initState 0 none).1.schedule = [] ∧
    (generateSchedule initState 0 none).2 = GenResult.noTasks :=
  generate_empty_tasks 1 0 initState 0 none Reachable.init rfl

/-- With no cancellation, the tick loop runs its full fuel, publishing
one tick per remaining second. -/
theorem countdownLoop_none (s : ℕ) : ∀ (fuel i : ℕ),
    countdownLoop none s i fuel =
      (i + fuel, (List.range' i fuel).map (fun k => fmtTime (s - k))) := by
  intro fuel
  induction fuel with
  | zero => intro i; simp [countdownLoop]
  | succ fuel ih =>
    intro i
    have hflag : flagAt none i = true := rfl
    simp only [countdownLoop, hflag, if_true]
    rw [ih (i + 1), List.range'_succ, List.map_cons]
    simp only [Prod.mk.injEq]
    exact ⟨by omega, by trivial⟩

/-- With the flag observed cleared at read `c ≤ s`, the loop stops at
read `c`, having published exactly the ticks for reads `i, ..., c-1`. -/
theorem countdownLoop_cancel (s c : ℕ) (hcs : c ≤ s) : ∀ (fuel i : ℕ),
    i + fuel = s → i ≤ c →
    countdownLoop (some c) s i fuel =
      (c, (List.range' i (c - i)).map (fun k => fmtTime (s - k))) := by
  intro fuel
  induction fuel with
  | zero =>
    intro i hif hic
    have hieq : i = c := by omega
    subst hieq
    simp [countdownLoop]
  | succ fuel ih =>
    intro i hif hic
    by_cases hlt : i < c
    · have hflag : flagAt (some c) i = true := by simp [flagAt, hlt]
      simp only [countdownLoop, hflag, if_true]
      rw [ih (i + 1) (by omega) (by omega),
        show c - i = (c - (i + 1)) + 1 from by omega,
        List.range'_succ, List.map_cons]
    · have hieq : i = c := by omega
      subst hieq
      have hflag : flagAt (some i) i = false := by simp [flagAt]
      simp [countdownLoop, hflag]

/-- C9: a countdown left alone ticks down its full duration, publishes
the completion message last, and adds exactly 10 points; a countdown
whose running flag is cleared at read `c`, before expiry, stops there —
its published output is exactly the first `c` ticks, with no completion
message — and leaves the points untouched. In both cases the flag ends
cleared. -/
theorem countdown_complete_or_cancelled (s c : ℕ) (pts : ℤ) (hc : c < s) :
    countdown s none pts =
      ⟨pts + 10, false,
        ((List.range s).map (fun j => fmtTime (s - j))) ++ ["专注完成！"]⟩ ∧
    countdown s (some c) pts =
      ⟨pts, false, (List.range c).map (fun j => fmtTime (s - j))⟩ := by
  constructor
  · simp only [countdown, countdownLoop_none s s 0]
    simp [flagAt, List.range_eq_range']
  · simp only [countdown,
      countdownLoop_cancel s c (Nat.le_of_lt hc) s 0 (by omega) (by omega)]
    have hflag : flagAt (some c) c = false := by simp [flagAt]
    have hcz : c - 0 = c := by omega
    simp [hflag, hcz, List.range_eq_range']

/-- Witness for `countdown_complete_or_cancelled`: a 2-second session
completing (plus 10 points, completion message last) and the same
session cancelled at the first read (unchanged points, one tick). -/
theorem countdown_complete_or_cancelled_witness :
    countdown 2 none 0 = ⟨10, false, ["剩余: 00:02", "剩余: 00:01", "专注完成！"]⟩ ∧
    countdown 2 (some 1) 0 = ⟨0, false, ["剩余: 00:02"]⟩ := by
  have h := countdown_complete_or_cancelled 2 1 0 (by decide)
  exact ⟨h.1.trans (by decide), h.2.trans (by decide)⟩

/-- However a countdown ends, it clears the running flag and either
leaves the points alone or adds exactly 10. -/
theorem countdown_result_cases (s : ℕ) (cancel : Option ℕ) (pts : ℤ) :
    (countdown s cancel pts).timerRunning = false ∧
    ((countdown s cancel pts).points = pts ∨
      (countdown s cancel pts).points = pts + 10) := by
  simp only [countdown]
  cases hf : flagAt cancel (countdownLoop cancel s 0 s).1 <;> simp [hf]

/-- When no session is running, `start_focus_session` never reports
`InvalidState`. -/
theorem startFocus_not_invalidState (s : AppState) (ans : Option String)
    (h : s.timerRunning = false) :
    (startFocusSession s ans).2 ≠ StartResult.invalidState := by
  simp only [startFocusSession, h, Bool.false_eq_true, if_false]
  repeat' split
  all_goals simp

/-- No step decreases the point total. -/
theorem step_points_mono {s s' : AppState} (hs : Step s s') :
    s.points ≤ s'.points := by
  cases hs with
  | add n h d =>
    rcases addTask_state_cases s n h d with hc | ⟨t, hc⟩ <;> rw [hc]
  | gen today ans => exact le_of_eq (genSchedule_points s today ans).symm
  | start ans =>
    rcases startFocus_state_cases s ans with hc | hc <;> rw [hc]
  | countdownEnd seconds cancel h =>
    rcases (countdown_result_cases seconds cancel s.points).2 with hp | hp <;>
      simp [hp]

/-- Points never go negative in a reachable state. -/
theorem reachable_points_nonneg : ∀ s : AppState, Reachable s → 0 ≤ s.points := by
  intro s hr
  induction hr with
  | init => exact le_refl 0
  | step hr hs ih => exact le_trans ih (step_points_mono hs)

/-- C10: a finished countdown always ends with the running flag cleared
(so a later start is not rejected as `InvalidState`) and changes the
point total by exactly 0 or exactly +10, never more; consequently the
point total never decreases along any step and is non-negative in every
reachable state. -/
theorem session_invariants :
    (∀ (seconds : ℕ) (cancel : Option ℕ) (pts : ℤ),
      (countdown seconds cancel pts).timerRunning = false ∧
      ((countdown seconds cancel pts).points = pts ∨
        (countdown seconds cancel pts).points = pts + 10)) ∧
    (∀ (s : AppState) (ans : Option String), s.timerRunning = false →
      (startFocusSession s ans).2 ≠ StartResult.invalidState) ∧
    (∀ s s' : AppState, Step s s' → s.points ≤ s'.points) ∧
    (∀ s : AppState, Reachable s → 0 ≤ s.points) :=
  ⟨countdown_result_cases, startFocus_not_invalidState,
    fun _ _ => step_points_mono, reachable_points_nonneg⟩

/-- Witness for `session_invariants` at concrete instances: the initial
state can start a session, and a concrete completed countdown cleared
its flag; the initial points are non-negative. -/
theorem session_invariants_witness :
    (countdown 3 none 0).timerRunning = false ∧
    initState.timerRunning = false ∧
    (startFocusSession initState (some "25")).2 ≠ StartResult.invalidState ∧
    0 ≤ initState.points :=
  ⟨(session_invariants.1 3 none 0).1, rfl,
    session_invariants.2.1 initState (some "25") rfl,
    session_invariants.2.2.2 initState Reachable.init⟩

end AiStudy
